import Mathlib

/-
Verification of the camera/lidar sensor-fusion TTC estimation core
(src/camFusion_Student.cpp, src/FinalProject_Camera.cpp).

Modelling conventions (shallow embedding):
  * C++ double/float values are modelled as exact real numbers (ℝ); the
    decimal literals 0.1, 1.6, 0.7, ... are modelled by the exact rationals
    they denote.  Floating-point rounding itself is out of scope.
  * cv::Rect has int fields; assigning a double expression to an int field
    truncates toward zero (dtrunc below).  cv::Rect::contains is the
    half-open test  x <= px < x+width  and  y <= py < y+height.
  * Converting cv::Point2f to cv::Point (as done implicitly by
    Rect::contains on a float point) uses cvRound, round-half-to-even.
  * An out parameter `double &TTC` that a function may leave unassigned is
    modelled as Option ℝ: `some v` means the function wrote v, `none` means
    it returned without writing (the caller's variable keeps garbage);
    in computeTTCCamera the explicit `TTC = NAN` marker is modelled as
    `none` as well.
  * std::vector iteration becomes List folds; element order is preserved.
  * .at(i) lookups are modelled with getD (the claims under study never
    exercise the out-of-range exception).
-/

noncomputable section

open Classical

/-! ## Data model (dataStructures.h) -/

structure LidarPoint where
  x : ℝ
  y : ℝ
  z : ℝ
  r : ℝ

structure Point2 where
  x : ℝ
  y : ℝ

structure KeyPoint where
  pt : Point2

structure DMatch where
  queryIdx : ℕ
  trainIdx : ℕ

structure RectI where
  x : ℤ
  y : ℤ
  width : ℤ
  height : ℤ

structure BoundingBox where
  boxID : ℤ
  roi : RectI
  lidarPoints : List LidarPoint
  kptMatches : List DMatch

instance : Inhabited Point2 := ⟨⟨0, 0⟩⟩

instance : Inhabited KeyPoint := ⟨⟨⟨0, 0⟩⟩⟩

instance : Inhabited DMatch := ⟨⟨0, 0⟩⟩

/-! ## Numeric helpers shared by several functions -/

/-- C++ conversion of a double to int: truncation toward zero. -/
def dtrunc (q : ℝ) : ℤ := if 0 ≤ q then ⌊q⌋ else ⌈q⌉

/-- OpenCV cvRound (used by the Point2f → Point conversion inside
cv::Rect::contains): round half to even. -/
def cvRound (q : ℝ) : ℤ :=
  if q - ⌊q⌋ = 1 / 2 then (if ⌊q⌋ % 2 = 0 then ⌊q⌋ else ⌊q⌋ + 1) else round q

/-- cv::norm of the difference of two 2-D points (Euclidean distance). -/
def normPt (p q : Point2) : ℝ := Real.sqrt ((p.x - q.x) ^ 2 + (p.y - q.y) ^ 2)

/-- cv::Rect::contains for integer pixel coordinates:
half-open on the right/bottom. -/
def rectContains (r : RectI) (px py : ℤ) : Prop :=
  r.x ≤ px ∧ px < r.x + r.width ∧ r.y ≤ py ∧ py < r.y + r.height

instance (r : RectI) (px py : ℤ) : Decidable (rectContains r px py) := by
  unfold rectContains; infer_instance

/-- The shrunken bounding box computed in clusterLidarWithROI and
clusterKptMatchesWithROI: each coordinate is assigned from a double
expression into an int field, hence truncated. -/
def shrinkRect (roi : RectI) (s : ℝ) : RectI where
  x := dtrunc ((roi.x : ℝ) + s * (roi.width : ℝ) / 2)
  y := dtrunc ((roi.y : ℝ) + s * (roi.height : ℝ) / 2)
  width := dtrunc ((roi.width : ℝ) * (1 - s))
  height := dtrunc ((roi.height : ℝ) * (1 - s))

/-! ## matchBoundingBoxes (camFusion_Student.cpp lines 360-384)

cv::Rect operator& (intersection), operator| (minimal enclosing
rectangle) and .area(), as used by
  IOURatio = ((it1->roi) & (it2->roi)).area() / float(((it1->roi) | (it2->roi)).area());
-/

def rectArea (r : RectI) : ℤ := r.width * r.height

/-- cv::Rect operator&: intersection, normalised to the all-zero rect when
empty. -/
def cvRectInter (a b : RectI) : RectI :=
  let x1 := max a.x b.x
  let y1 := max a.y b.y
  let w := min (a.x + a.width) (b.x + b.width) - x1
  let h := min (a.y + a.height) (b.y + b.height) - y1
  if w ≤ 0 ∨ h ≤ 0 then ⟨0, 0, 0, 0⟩ else ⟨x1, y1, w, h⟩

def rectIsEmpty (r : RectI) : Prop := r.width ≤ 0 ∨ r.height ≤ 0

instance (r : RectI) : Decidable (rectIsEmpty r) := by
  unfold rectIsEmpty; infer_instance

/-- cv::Rect operator|: the minimal axis-aligned rectangle enclosing both
(NOT the area-theoretic union of the two point sets). -/
def cvRectUnion (a b : RectI) : RectI :=
  if rectIsEmpty a then b
  else if rectIsEmpty b then a
  else
    ⟨min a.x b.x, min a.y b.y,
     max (a.x + a.width) (b.x + b.width) - min a.x b.x,
     max (a.y + a.height) (b.y + b.height) - min a.y b.y⟩

/-- The ratio the code calls IOURatio: intersection area over the area of
the minimal enclosing rectangle. -/
def iouRatioCode (a b : RectI) : ℚ :=
  (rectArea (cvRectInter a b) : ℚ) / (rectArea (cvRectUnion a b) : ℚ)

/-- matchBoundingBoxes.  The keypoint matches argument is accepted but never
read.  For each previous-frame box the inner loop tracks the running
maximum ratio, pushing the (prev, curr) pair on every strict improvement;
the recorded pair is boundingBoxPairs.back().  std::map::insert is modelled
by appending the key/value pair. -/
def matchBoundingBoxes (dmatches : List DMatch)
    (prevBoxes currBoxes : List BoundingBox) : List (ℤ × ℤ) :=
  prevBoxes.foldl (fun bbBestMatches pb =>
    let st := currBoxes.foldl
      (fun (st : ℚ × List (BoundingBox × BoundingBox)) cb =>
        let r := iouRatioCode pb.roi cb.roi
        if st.1 < r then (r, st.2 ++ [(pb, cb)]) else st)
      (-(10 ^ 9), [])
    if (7 / 10 : ℚ) < st.1 then
      bbBestMatches ++
        [(((st.2.getLast?).getD (pb, pb)).1.boxID,
          ((st.2.getLast?).getD (pb, pb)).2.boxID)]
    else bbBestMatches) []

/-- The IoU described by the spec: area(intersection) / area(union), with
the union area of two rectangles given by inclusion–exclusion.
This definition follows the claim's words, for comparison with
iouRatioCode; it is not what the code computes. -/
def iouClaim (a b : RectI) : ℚ :=
  (rectArea (cvRectInter a b) : ℚ) /
    ((rectArea a + rectArea b - rectArea (cvRectInter a b) : ℤ) : ℚ)

/-- matchBoundingBoxes as the claim describes it: identical control flow but
with the true IoU.  Used only to exhibit the divergence. -/
def matchBoundingBoxesClaim (dmatches : List DMatch)
    (prevBoxes currBoxes : List BoundingBox) : List (ℤ × ℤ) :=
  prevBoxes.foldl (fun bbBestMatches pb =>
    let st := currBoxes.foldl
      (fun (st : ℚ × List (BoundingBox × BoundingBox)) cb =>
        let r := iouClaim pb.roi cb.roi
        if st.1 < r then (r, st.2 ++ [(pb, cb)]) else st)
      (-(10 ^ 9), [])
    if (7 / 10 : ℚ) < st.1 then
      bbBestMatches ++
        [(((st.2.getLast?).getD (pb, pb)).1.boxID,
          ((st.2.getLast?).getD (pb, pb)).2.boxID)]
    else bbBestMatches) []

/-- Running maximum of the code's IOURatio over a list of current boxes,
started from m (the code starts from -1e9). -/
def listMaxFrom (roi : RectI) (l : List BoundingBox) (m : ℚ) : ℚ :=
  l.foldl (fun a cb =>
    if a < iouRatioCode roi cb.roi then iouRatioCode roi cb.roi else a) m

/-- Best (maximal) IOURatio a previous box attains against the current
boxes, as maintained by the inner loop. -/
def bestIouRatio (roi : RectI) (currBoxes : List BoundingBox) : ℚ :=
  listMaxFrom roi currBoxes (-(10 ^ 9))

/-- The first current box attaining the maximal IOURatio (the tie-break the
loop implements via strict improvement). -/
def firstBestBox (roi : RectI) (currBoxes : List BoundingBox) : Option BoundingBox :=
  currBoxes.find? (fun cb => decide (iouRatioCode roi cb.roi = bestIouRatio roi currBoxes))

lemma listMaxFrom_cons (roi : RectI) (cb : BoundingBox) (rest : List BoundingBox) (m : ℚ) :
    listMaxFrom roi (cb :: rest) m =
      listMaxFrom roi rest
        (if m < iouRatioCode roi cb.roi then iouRatioCode roi cb.roi else m) := rfl

lemma le_listMaxFrom (roi : RectI) (l : List BoundingBox) :
    ∀ m : ℚ, m ≤ listMaxFrom roi l m := by
  induction l with
  | nil => intro m; simp [listMaxFrom]
  | cons cb rest ih =>
    intro m
    rw [listMaxFrom_cons]
    by_cases h : m < iouRatioCode roi cb.roi
    · rw [if_pos h]
      exact le_of_lt (lt_of_lt_of_le h (ih _))
    · rw [if_neg h]
      exact ih m

lemma scan_fst (pb : BoundingBox) (roi : RectI) (l : List BoundingBox) :
    ∀ (m : ℚ) (ps : List (BoundingBox × BoundingBox)),
      (l.foldl (fun st cb =>
          if st.1 < iouRatioCode roi cb.roi
          then (iouRatioCode roi cb.roi, st.2 ++ [(pb, cb)]) else st) (m, ps)).1
        = listMaxFrom roi l m := by
  induction l with
  | nil => intro m ps; simp [listMaxFrom]
  | cons cb rest ih =>
    intro m ps
    rw [List.foldl_cons, listMaxFrom_cons]
    by_cases h : m < iouRatioCode roi cb.roi
    · rw [if_pos h, if_pos h]; exact ih _ _
    · rw [if_neg h, if_neg h]; exact ih _ _

lemma scan_getLast (pb : BoundingBox) (roi : RectI) (l : List BoundingBox) :
    ∀ (m : ℚ) (ps : List (BoundingBox × BoundingBox)),
      ((l.foldl (fun st cb =>
          if st.1 < iouRatioCode roi cb.roi
          then (iouRatioCode roi cb.roi, st.2 ++ [(pb, cb)]) else st) (m, ps)).2).getLast?
        = if m < listMaxFrom roi l m
          then (l.find? (fun cb =>
                  decide (iouRatioCode roi cb.roi = listMaxFrom roi l m))).map
                 (fun cb => (pb, cb))
          else ps.getLast? := by
  induction l with
  | nil =>
    intro m ps
    simp [listMaxFrom]
  | cons cb rest ih =>
    intro m ps
    rw [List.foldl_cons, listMaxFrom_cons]
    by_cases h : m < iouRatioCode roi cb.roi
    · rw [if_pos h, if_pos h]
      rw [ih]
      have hle : iouRatioCode roi cb.roi ≤ listMaxFrom roi rest (iouRatioCode roi cb.roi) :=
        le_listMaxFrom roi rest _
      by_cases hr : iouRatioCode roi cb.roi < listMaxFrom roi rest (iouRatioCode roi cb.roi)
      · rw [if_pos hr, if_pos (lt_of_lt_of_le h hle)]
        have hne : ¬ (iouRatioCode roi cb.roi = listMaxFrom roi rest (iouRatioCode roi cb.roi)) :=
          ne_of_lt hr
        rw [List.find?_cons_of_neg _ (by simp [hne])]
      · have heq : iouRatioCode roi cb.roi = listMaxFrom roi rest (iouRatioCode roi cb.roi) :=
          le_antisymm hle (not_lt.mp hr)
        rw [if_neg hr, if_pos (lt_of_lt_of_le h hle)]
        rw [List.find?_cons_of_pos _ (by simp [← heq])]
        simp
    · rw [if_neg h, if_neg h]
      rw [ih]
      by_cases hm : m < listMaxFrom roi rest m
      · rw [if_pos hm, if_pos hm]
        have hne : ¬ (iouRatioCode roi cb.roi = listMaxFrom roi rest m) := by
          intro he
          exact absurd (lt_of_le_of_lt (he ▸ not_lt.mp h) hm) (lt_irrefl _)
        rw [List.find?_cons_of_neg _ (by simp [hne])]
      · rw [if_neg hm, if_neg hm]

lemma matchBoundingBoxes_foldl (dm : List DMatch) (curr : List BoundingBox)
    (prev : List BoundingBox) :
    ∀ acc : List (ℤ × ℤ),
      prev.foldl (fun bbBestMatches pb =>
        let st := curr.foldl
          (fun (st : ℚ × List (BoundingBox × BoundingBox)) cb =>
            let r := iouRatioCode pb.roi cb.roi
            if st.1 < r then (r, st.2 ++ [(pb, cb)]) else st)
          (-(10 ^ 9), [])
        if (7 / 10 : ℚ) < st.1 then
          bbBestMatches ++
            [(((st.2.getLast?).getD (pb, pb)).1.boxID,
              ((st.2.getLast?).getD (pb, pb)).2.boxID)]
        else bbBestMatches) acc
      = acc ++
        (prev.filter (fun pb => decide ((7 / 10 : ℚ) < bestIouRatio pb.roi curr))).map
          (fun pb => (pb.boxID, ((firstBestBox pb.roi curr).getD pb).boxID)) := by
  induction prev with
  | nil => intro acc; simp
  | cons pb rest ih =>
    intro acc
    rw [List.foldl_cons]
    have hfst := scan_fst pb pb.roi curr (-(10 ^ 9)) []
    have hlast := scan_getLast pb pb.roi curr (-(10 ^ 9)) []
    by_cases hthr : (7 / 10 : ℚ) < listMaxFrom pb.roi curr (-(10 ^ 9))
    · simp only [hfst, hlast, if_pos hthr]
      have hinit : (-(10 ^ 9) : ℚ) < listMaxFrom pb.roi curr (-(10 ^ 9)) :=
        lt_trans (by norm_num) hthr
      rw [if_pos hinit]
      rw [ih]
      have hfilter : (List.filter
          (fun pb => decide ((7 / 10 : ℚ) < bestIouRatio pb.roi curr)) (pb :: rest))
          = pb :: List.filter (fun pb => decide ((7 / 10 : ℚ) < bestIouRatio pb.roi curr)) rest := by
        rw [List.filter_cons_of_pos]
        simp [bestIouRatio, hthr]
      rw [hfilter, List.map_cons]
      have hbb : (((List.find? (fun cb =>
            decide (iouRatioCode pb.roi cb.roi = listMaxFrom pb.roi curr (-(10 ^ 9)))) curr).map
              (fun cb => (pb, cb))).getD (pb, pb)).1.boxID = pb.boxID ∧
          (((List.find? (fun cb =>
            decide (iouRatioCode pb.roi cb.roi = listMaxFrom pb.roi curr (-(10 ^ 9)))) curr).map
              (fun cb => (pb, cb))).getD (pb, pb)).2.boxID
            = ((firstBestBox pb.roi curr).getD pb).boxID := by
        rw [firstBestBox, bestIouRatio]
        cases hfind : List.find? (fun cb =>
            decide (iouRatioCode pb.roi cb.roi = listMaxFrom pb.roi curr (-(10 ^ 9)))) curr with
        | none => simp
        | some c => simp
      rw [hbb.1, hbb.2]
      simp
    · simp only [hfst, hlast, if_neg hthr]
      rw [ih]
      have hfilter : (List.filter
          (fun pb => decide ((7 / 10 : ℚ) < bestIouRatio pb.roi curr)) (pb :: rest))
          = List.filter (fun pb => decide ((7 / 10 : ℚ) < bestIouRatio pb.roi curr)) rest := by
        rw [List.filter_cons_of_neg]
        simp [bestIouRatio, hthr]
      rw [hfilter]

/-- Claim C5 (amended): matchBoundingBoxes compares, for each previous
rectangle, every current rectangle by the ratio
area(intersection) / area(minimal enclosing rectangle) — not the true IoU —
tracks the running maximum with ties broken by the first-seen maximum, and
records (previousId, currentId) iff that maximum exceeds 0.7; a previous
rectangle with no current rectangle above the threshold contributes no
entry, and nothing prevents two previous rectangles from mapping to the
same current rectangle. -/
theorem C5_matchBoundingBoxes_amended (dm : List DMatch)
    (prev curr : List BoundingBox) :
    matchBoundingBoxes dm prev curr =
      (prev.filter (fun pb => decide ((7 / 10 : ℚ) < bestIouRatio pb.roi curr))).map
        (fun pb => (pb.boxID, ((firstBestBox pb.roi curr).getD pb).boxID)) := by
  rw [matchBoundingBoxes]
  exact matchBoundingBoxes_foldl dm curr prev []

/-- Claim C5 counterexample: with previous rectangle (0,0,100,100) and
current rectangle (9,9,100,100), the true IoU is 8281/11719 > 0.7, so the
procedure described by the claim records the pair (0,5); the code's ratio
divides by the enclosing rectangle's area instead, giving
8281/11881 < 0.7, and the code records nothing. -/
theorem C5_counterexample :
    matchBoundingBoxes [] [⟨0, ⟨0, 0, 100, 100⟩, [], []⟩] [⟨5, ⟨9, 9, 100, 100⟩, [], []⟩] = []
    ∧ matchBoundingBoxesClaim [] [⟨0, ⟨0, 0, 100, 100⟩, [], []⟩] [⟨5, ⟨9, 9, 100, 100⟩, [], []⟩]
        = [(0, 5)]
    ∧ iouClaim ⟨0, 0, 100, 100⟩ ⟨9, 9, 100, 100⟩ = 8281 / 11719
    ∧ (8281 / 11719 : ℚ) > 7 / 10
    ∧ iouRatioCode ⟨0, 0, 100, 100⟩ ⟨9, 9, 100, 100⟩ = 8281 / 11881
    ∧ ¬ ((8281 / 11881 : ℚ) > 7 / 10) := by
  refine ⟨?_, ?_, ?_, by norm_num, ?_, by norm_num⟩
  · norm_num [matchBoundingBoxes, iouRatioCode, cvRectInter, cvRectUnion, rectIsEmpty,
      rectArea, List.foldl]
  · norm_num [matchBoundingBoxesClaim, iouClaim, cvRectInter, cvRectUnion, rectIsEmpty,
      rectArea, List.foldl]
  · norm_num [iouClaim, cvRectInter, rectArea]
  · norm_num [iouRatioCode, cvRectInter, cvRectUnion, rectIsEmpty, rectArea]

/-! ## computeTTCLidar (camFusion_Student.cpp lines 244-357)

Per-frame statistics over x and intensity, outlier-filtered minimum x,
then TTC under a constant-velocity (TTCcalModel = 0) or
constant-acceleration (otherwise) model.  vehicleVel / vehicleAcc are
in-out state, uninitialised encoded by the sentinel -1e9. -/

/-- One accumulation loop of the statistics pass: sum of f over the points
(lidarPrevXSum, lidarPrevISqSum, ... in the code). -/
def sumF (f : LidarPoint → ℝ) (pts : List LidarPoint) : ℝ :=
  pts.foldl (fun s p => s + f p) 0

/-- Sample mean, e.g. lidarPrevXMean = lidarPrevXSum / lidarPointsPrev.size(). -/
def meanF (f : LidarPoint → ℝ) (pts : List LidarPoint) : ℝ :=
  sumF f pts / pts.length

/-- Sample standard deviation, e.g.
lidarPrevXStd = sqrt(lidarPrevXSqSum/size - pow(lidarPrevXMean,2)). -/
def stdF (f : LidarPoint → ℝ) (pts : List LidarPoint) : ℝ :=
  Real.sqrt (sumF (fun p => (f p) ^ 2) pts / pts.length - (meanF f pts) ^ 2)

/-- The filter condition of the closest-point loops: x within
mean ± DistThreshold(=2)·std and intensity within
mean ± intensityThreshold(=1.6)·std, all strict. -/
def lidarBand (pts : List LidarPoint) (p : LidarPoint) : Prop :=
  p.x > meanF LidarPoint.x pts - 2 * stdF LidarPoint.x pts ∧
  p.x < meanF LidarPoint.x pts + 2 * stdF LidarPoint.x pts ∧
  p.r > meanF LidarPoint.r pts - 1.6 * stdF LidarPoint.r pts ∧
  p.r < meanF LidarPoint.r pts + 1.6 * stdF LidarPoint.r pts

/-- The minXPrev / minXCurr loop: running minimum (initialised to 1e9) of
the x of the points passing the band filter. -/
def lidarMinX (pts : List LidarPoint) : ℝ :=
  pts.foldl (fun m p =>
    if lidarBand pts p then (if m > p.x then p.x else m) else m) (10 ^ 9)

/-- The points that survive the outlier band of their own frame. -/
def lidarSurvivors (pts : List LidarPoint) : List LidarPoint :=
  pts.filter (fun p => decide (lidarBand pts p))

/-- Coefficient b of the monic quadratic, b = vehicleVel/(0.5*vehicleAcc). -/
def quadB (v a : ℝ) : ℝ := v / (0.5 * a)

/-- Coefficient c of the monic quadratic, c = -minXCurr/(0.5*vehicleAcc). -/
def quadC (x a : ℝ) : ℝ := -x / (0.5 * a)

/-- Discriminant d = b*b - 4*a*c with a = 1. -/
def quadD (v a x : ℝ) : ℝ := quadB v a * quadB v a - 4 * 1 * quadC x a

/-- TTC1 = (-b - sqrt(b*b - 4*a*c)) / 2*a with a = 1 (the code's expression
parses as a division by 2 followed by multiplication by a). -/
def ttcRoot1 (v a x : ℝ) : ℝ :=
  (-(quadB v a) - Real.sqrt (quadB v a * quadB v a - 4 * 1 * quadC x a)) / 2 * 1

/-- TTC2 = (-b + sqrt(b*b - 4*a*c)) / 2*a with a = 1. -/
def ttcRoot2 (v a x : ℝ) : ℝ :=
  (-(quadB v a) + Real.sqrt (quadB v a * quadB v a - 4 * 1 * quadC x a)) / 2 * 1

/-- The quadratic branch of the constant-acceleration model: root selection
on the sign of the discriminant and of the two roots; in the fall-through
cases the code only prints and leaves TTC unassigned (none). -/
def quadTTC (v a x : ℝ) : Option ℝ :=
  if 0 < quadD v a x then
    (if 0 < ttcRoot1 v a x ∧ 0 < ttcRoot2 v a x then
       some (min (ttcRoot1 v a x) (ttcRoot2 v a x))
     else if 0 < ttcRoot1 v a x ∧ ttcRoot2 v a x < 0 then some (ttcRoot1 v a x)
     else if ttcRoot1 v a x < 0 ∧ 0 < ttcRoot2 v a x then some (ttcRoot2 v a x)
     else none)
  else if quadD v a x = 0 then some (quadB v a / (-2 * 1))
  else none

/-- Result of computeTTCLidar: the TTC out-parameter (none = left
unassigned) and the final values of the vehicleVel / vehicleAcc state. -/
structure LidarResult where
  ttc : Option ℝ
  vel : ℝ
  acc : ℝ

/-- computeTTCLidar.  Statement order follows the source: the acceleration
estimation block (lines 300-307) runs before the TTC computation and
regardless of the model; the velocity update (lines 348-355) runs only in
the constant-acceleration branch, after the TTC computation, and reads the
possibly-updated vehicleAcc. -/
def computeTTCLidar (lidarPointsPrev lidarPointsCurr : List LidarPoint)
    (frameRate vehicleVel vehicleAcc : ℝ) (TTCcalModel : ℤ) : LidarResult :=
  let dT : ℝ := 1 / frameRate
  let minXPrev := lidarMinX lidarPointsPrev
  let minXCurr := lidarMinX lidarPointsCurr
  let vehicleAcc1 :=
    if vehicleVel ≠ -(10 ^ 9) ∧ vehicleAcc = -(10 ^ 9) then
      ((minXPrev - minXCurr) / dT - vehicleVel) / dT
    else vehicleAcc
  if TTCcalModel = 0 then
    ⟨some (minXCurr * dT / (minXPrev - minXCurr)), vehicleVel, vehicleAcc1⟩
  else
    let ttc : Option ℝ :=
      if vehicleAcc1 = -(10 ^ 9) then some (minXCurr * dT / (minXPrev - minXCurr))
      else quadTTC vehicleVel vehicleAcc1 minXCurr
    if vehicleVel = -(10 ^ 9) ∧ vehicleAcc1 = -(10 ^ 9) then
      ⟨ttc, (minXPrev - minXCurr) / dT, vehicleAcc1⟩
    else
      ⟨ttc, vehicleVel + vehicleAcc1 * dT, vehicleAcc1⟩

/-- A whole run over a frame sequence under the constant-velocity model:
the caller threads vehicleVel / vehicleAcc through every call. -/
def runLidarCV (frames : List (List LidarPoint × List LidarPoint))
    (frameRate v a : ℝ) : ℝ × ℝ :=
  frames.foldl (fun st f =>
    let res := computeTTCLidar f.1 f.2 frameRate st.1 st.2 0
    (res.vel, res.acc)) (v, a)

/-- Rank of the kinematic state encoded by the -1e9 sentinels:
0 = Uninitialized, 1 = VelocityKnown, 2 = VelocityAndAccelerationKnown. -/
def kinStateRank (v a : ℝ) : ℕ :=
  if a ≠ -(10 ^ 9) then 2 else if v ≠ -(10 ^ 9) then 1 else 0

/-- Two-point example frame used to instantiate the lidar theorems:
x values x1 and x1+2 (sample stddev 1), intensities 4 and 6
(sample stddev 1), so the band filter keeps both points. -/
def lidarPairEx (x1 : ℝ) : List LidarPoint :=
  [⟨x1, 0, 0, 4⟩, ⟨x1 + 2, 0, 0, 6⟩]

lemma meanF_x_pair (x1 : ℝ) : meanF LidarPoint.x (lidarPairEx x1) = x1 + 1 := by
  norm_num [meanF, sumF, lidarPairEx, List.foldl]
  ring

lemma stdF_x_pair (x1 : ℝ) : stdF LidarPoint.x (lidarPairEx x1) = 1 := by
  have h : sumF (fun p => (LidarPoint.x p) ^ 2) (lidarPairEx x1) /
      ((lidarPairEx x1).length : ℝ) - (meanF LidarPoint.x (lidarPairEx x1)) ^ 2 = 1 := by
    rw [meanF_x_pair]
    norm_num [sumF, lidarPairEx, List.foldl]
    ring
  rw [stdF, h, Real.sqrt_one]

lemma meanF_r_pair (x1 : ℝ) : meanF LidarPoint.r (lidarPairEx x1) = 5 := by
  norm_num [meanF, sumF, lidarPairEx, List.foldl]

lemma stdF_r_pair (x1 : ℝ) : stdF LidarPoint.r (lidarPairEx x1) = 1 := by
  have h : sumF (fun p => (LidarPoint.r p) ^ 2) (lidarPairEx x1) /
      ((lidarPairEx x1).length : ℝ) - (meanF LidarPoint.r (lidarPairEx x1)) ^ 2 = 1 := by
    rw [meanF_r_pair]
    norm_num [sumF, lidarPairEx, List.foldl]
  rw [stdF, h, Real.sqrt_one]

lemma lidarBand_pair_left (x1 : ℝ) : lidarBand (lidarPairEx x1) ⟨x1, 0, 0, 4⟩ := by
  rw [lidarBand, meanF_x_pair, stdF_x_pair, meanF_r_pair, stdF_r_pair]
  refine ⟨?_, ?_, ?_, ?_⟩ <;> (dsimp only; linarith)

lemma lidarBand_pair_right (x1 : ℝ) : lidarBand (lidarPairEx x1) ⟨x1 + 2, 0, 0, 6⟩ := by
  rw [lidarBand, meanF_x_pair, stdF_x_pair, meanF_r_pair, stdF_r_pair]
  refine ⟨?_, ?_, ?_, ?_⟩ <;> (dsimp only; linarith)

lemma lidarSurvivors_pair (x1 : ℝ) :
    lidarSurvivors (lidarPairEx x1) = [⟨x1, 0, 0, 4⟩, ⟨x1 + 2, 0, 0, 6⟩] := by
  show List.filter (fun p => decide (lidarBand (lidarPairEx x1) p))
      [⟨x1, 0, 0, 4⟩, ⟨x1 + 2, 0, 0, 6⟩] = _
  rw [List.filter_cons_of_pos
        (by simp only [decide_eq_true_eq]; exact lidarBand_pair_left x1),
      List.filter_cons_of_pos
        (by simp only [decide_eq_true_eq]; exact lidarBand_pair_right x1),
      List.filter_nil]

lemma lidarMinX_nil : lidarMinX [] = 10 ^ 9 := rfl

/-! Characterisation of the filtered-minimum loop in terms of the survivor
list, for claim C1. -/

lemma foldl_min_le (l : List ℝ) : ∀ init : ℝ, l.foldl min init ≤ init := by
  induction l with
  | nil => intro init; simp
  | cons x xs ih =>
    intro init
    rw [List.foldl_cons]
    exact le_trans (ih (min init x)) (min_le_left _ _)

lemma foldl_min_le_mem (l : List ℝ) :
    ∀ init : ℝ, ∀ q ∈ l, l.foldl min init ≤ q := by
  induction l with
  | nil => intro init q hq; simp at hq
  | cons x xs ih =>
    intro init q hq
    rw [List.foldl_cons]
    rcases List.mem_cons.mp hq with h | h
    · exact le_trans (foldl_min_le xs (min init x)) (h ▸ min_le_right _ _)
    · exact ih (min init x) q h

lemma foldl_min_mem_insert (l : List ℝ) :
    ∀ init : ℝ, l.foldl min init = init ∨ l.foldl min init ∈ l := by
  induction l with
  | nil => intro init; left; rfl
  | cons x xs ih =>
    intro init
    rw [List.foldl_cons]
    rcases ih (min init x) with h | h
    · rcases le_total init x with hc | hc
      · left; rw [h, min_eq_left hc]
      · right; rw [h, min_eq_right hc]; exact List.mem_cons_self x xs
    · right; exact List.mem_cons_of_mem x h

lemma foldl_min_eq_of_min (l : List ℝ) (m init : ℝ)
    (hmem : m ∈ l) (hub : ∀ q ∈ l, m ≤ q) (hinit : m ≤ init) :
    l.foldl min init = m := by
  refine le_antisymm (foldl_min_le_mem l init m hmem) ?_
  rcases foldl_min_mem_insert l init with h | h
  · rw [h]; exact hinit
  · exact hub _ h

lemma ite_gt_eq_min (m x : ℝ) : (if m > x then x else m) = min m x := by
  rcases lt_or_le x m with h | h
  · rw [if_pos h, min_eq_right (le_of_lt h)]
  · rw [if_neg (not_lt.mpr h), min_eq_left h]

lemma foldl_band_min (P : LidarPoint → Prop) (l : List LidarPoint) :
    ∀ init : ℝ,
      l.foldl (fun m p => if P p then (if m > p.x then p.x else m) else m) init
        = ((l.filter (fun p => decide (P p))).map LidarPoint.x).foldl min init := by
  induction l with
  | nil => intro init; simp
  | cons p ps ih =>
    intro init
    rw [List.foldl_cons]
    by_cases h : P p
    · rw [if_pos h, List.filter_cons_of_pos (by simp [h]), List.map_cons,
        List.foldl_cons, ite_gt_eq_min]
      exact ih _
    · rw [if_neg h, List.filter_cons_of_neg (by simp [h])]
      exact ih _

lemma lidarMinX_eq_foldl_min (pts : List LidarPoint) :
    lidarMinX pts = ((lidarSurvivors pts).map LidarPoint.x).foldl min (10 ^ 9) := by
  rw [lidarMinX, lidarSurvivors]
  exact foldl_band_min (lidarBand pts) pts (10 ^ 9)

lemma lidarMinX_eq_survivor_min (pts : List LidarPoint) (m : ℝ)
    (hmem : m ∈ (lidarSurvivors pts).map LidarPoint.x)
    (hub : ∀ q ∈ (lidarSurvivors pts).map LidarPoint.x, m ≤ q)
    (h9 : m ≤ 10 ^ 9) :
    lidarMinX pts = m := by
  rw [lidarMinX_eq_foldl_min]
  exact foldl_min_eq_of_min _ m _ hmem hub h9

lemma lidarMinX_pair (x1 : ℝ) (h9 : x1 ≤ 10 ^ 9) :
    lidarMinX (lidarPairEx x1) = x1 := by
  rw [lidarMinX_eq_foldl_min, lidarSurvivors_pair]
  rw [List.map_cons, List.map_cons, List.map_nil,
      List.foldl_cons, List.foldl_cons, List.foldl_nil]
  show min (min (10 ^ 9) x1) (x1 + 2) = x1
  rw [min_eq_right h9, min_eq_left (by linarith)]

lemma computeTTCLidar_cv_state (prev curr : List LidarPoint) (fr a : ℝ) :
    (computeTTCLidar prev curr fr (-(10 ^ 9)) a 0).vel = -(10 ^ 9) ∧
    (computeTTCLidar prev curr fr (-(10 ^ 9)) a 0).acc = a := by
  constructor <;> simp [computeTTCLidar]

lemma runLidarCV_sentinel (frames : List (List LidarPoint × List LidarPoint)) (fr : ℝ) :
    runLidarCV frames fr (-(10 ^ 9)) (-(10 ^ 9)) = (-(10 ^ 9), -(10 ^ 9)) := by
  induction frames with
  | nil => rfl
  | cons f fs ih =>
    rw [runLidarCV, List.foldl_cons]
    have h := computeTTCLidar_cv_state f.1 f.2 fr (-(10 ^ 9))
    rw [runLidarCV] at ih
    show List.foldl _ ((computeTTCLidar f.1 f.2 fr (-(10 ^ 9)) (-(10 ^ 9)) 0).vel,
      (computeTTCLidar f.1 f.2 fr (-(10 ^ 9)) (-(10 ^ 9)) 0).acc) fs = _
    rw [h.1, h.2]
    exact ih

lemma quad_root_core (a v x B C S : ℝ)
    (hB : 0.5 * a * B = v) (hC : 0.5 * a * C = -x)
    (hs : S ^ 2 = B * B - 4 * 1 * C) :
    0.5 * a * ((-B - S) / 2 * 1) ^ 2 + v * ((-B - S) / 2 * 1) - x = 0 ∧
    0.5 * a * ((-B + S) / 2 * 1) ^ 2 + v * ((-B + S) / 2 * 1) - x = 0 := by
  constructor
  · linear_combination (a / 8) * hs - ((-B - S) / 2) * hB - hC
  · linear_combination (a / 8) * hs - ((-B + S) / 2) * hB - hC

lemma quad_root_property (v a x : ℝ) (ha0 : a ≠ 0) (hd : 0 ≤ quadD v a x) :
    0.5 * a * ttcRoot1 v a x ^ 2 + v * ttcRoot1 v a x - x = 0 ∧
    0.5 * a * ttcRoot2 v a x ^ 2 + v * ttcRoot2 v a x - x = 0 := by
  have h05 : (0.5 : ℝ) * a ≠ 0 := mul_ne_zero (by norm_num) ha0
  have hB : 0.5 * a * quadB v a = v := by
    rw [quadB, mul_comm]; exact div_mul_cancel₀ v h05
  have hC : 0.5 * a * quadC x a = -x := by
    rw [quadC, mul_comm]; exact div_mul_cancel₀ (-x) h05
  have hs : Real.sqrt (quadD v a x) ^ 2
      = quadB v a * quadB v a - 4 * 1 * quadC x a := by
    rw [Real.sq_sqrt hd, quadD]
  exact quad_root_core a v x (quadB v a) (quadC x a) (Real.sqrt (quadD v a x)) hB hC hs

/-- Claim C1: under the ConstantVelocity model (TTCcalModel = 0),
computeTTCLidar writes TTC = minXCurr * dT / (minXPrev - minXCurr) with
dT = 1/frameRate, where minXPrev and minXCurr are, per frame, the minimum
x among the points whose x lies within mean ± 2·stddev of x and whose
intensity lies within mean ± 1.6·stddev of intensity of that frame
(provided such survivors exist and their minimum does not exceed the 1e9
initialiser of the loop). -/
theorem C1_lidar_cv_formula (prev curr : List LidarPoint) (fr v a mp mc : ℝ)
    (hpMem : mp ∈ (lidarSurvivors prev).map LidarPoint.x)
    (hpMin : ∀ q ∈ (lidarSurvivors prev).map LidarPoint.x, mp ≤ q)
    (hp9 : mp ≤ 10 ^ 9)
    (hcMem : mc ∈ (lidarSurvivors curr).map LidarPoint.x)
    (hcMin : ∀ q ∈ (lidarSurvivors curr).map LidarPoint.x, mc ≤ q)
    (hc9 : mc ≤ 10 ^ 9) :
    (computeTTCLidar prev curr fr v a 0).ttc = some (mc * (1 / fr) / (mp - mc)) := by
  have hp := lidarMinX_eq_survivor_min prev mp hpMem hpMin hp9
  have hc := lidarMinX_eq_survivor_min curr mc hcMem hcMin hc9
  simp [computeTTCLidar, hp, hc]

/-- Witness for C1 at the spec's example: frames with filtered minima
minXPrev = 10 and minXCurr = 9 at frameRate 10 give TTC = 0.9 s. -/
theorem C1_lidar_cv_formula_witness :
    ((10 : ℝ) ∈ (lidarSurvivors (lidarPairEx 10)).map LidarPoint.x) ∧
    ((9 : ℝ) ∈ (lidarSurvivors (lidarPairEx 9)).map LidarPoint.x) ∧
    (computeTTCLidar (lidarPairEx 10) (lidarPairEx 9) 10 (-(10 ^ 9)) (-(10 ^ 9)) 0).ttc
      = some (9 / 10) := by
  refine ⟨?_, ?_, ?_⟩
  · rw [lidarSurvivors_pair]; simp
  · rw [lidarSurvivors_pair]; simp
  · have h := C1_lidar_cv_formula (lidarPairEx 10) (lidarPairEx 9) 10
      (-(10 ^ 9)) (-(10 ^ 9)) 10 9
      (by rw [lidarSurvivors_pair]; simp)
      (by rw [lidarSurvivors_pair]; intro q hq; simp at hq
          rcases hq with h | h <;> rw [h] <;> norm_num)
      (by norm_num)
      (by rw [lidarSurvivors_pair]; simp)
      (by rw [lidarSurvivors_pair]; intro q hq; simp at hq
          rcases hq with h | h <;> rw [h] <;> norm_num)
      (by norm_num)
    rw [h]
    norm_num

/-- Claim C3 counterexample: with identical previous and current point sets
the filtered minima agree (both 9), yet computeTTCLidar still writes a TTC
value: the division minXCurr*dT/(minXPrev-minXCurr) is carried out with a
zero denominator (yielding +infinity in IEEE arithmetic), and no
"unavailable" marker is produced. -/
theorem C3_lidar_zero_motion_counterexample :
    lidarMinX (lidarPairEx 9) = 9 ∧
    lidarMinX (lidarPairEx 9) - lidarMinX (lidarPairEx 9) = 0 ∧
    (computeTTCLidar (lidarPairEx 9) (lidarPairEx 9) 10
        (-(10 ^ 9)) (-(10 ^ 9)) 0).ttc ≠ none := by
  refine ⟨lidarMinX_pair 9 (by norm_num), by ring, ?_⟩
  simp [computeTTCLidar]

/-- Claim C3 (amended): when minXPrev = minXCurr the ConstantVelocity
branch of computeTTCLidar still assigns TTC via the division
minXCurr*dT/(minXPrev-minXCurr), whose denominator is zero (+infinity
under IEEE arithmetic); the function has no "unavailable" branch in this
path, so the TTC it produces is not guaranteed to be positive or marked
unavailable. -/
theorem C3_lidar_zero_motion_amended (prev curr : List LidarPoint) (fr v a : ℝ)
    (h : lidarMinX prev = lidarMinX curr) :
    (computeTTCLidar prev curr fr v a 0).ttc ≠ none ∧
    (computeTTCLidar prev curr fr v a 0).ttc
      = some (lidarMinX curr * (1 / fr) / 0) := by
  constructor
  · simp [computeTTCLidar]
  · simp [computeTTCLidar, h]

theorem C3_lidar_zero_motion_amended_witness :
    (computeTTCLidar (lidarPairEx 9) (lidarPairEx 9) 10
        (-(10 ^ 9)) (-(10 ^ 9)) 0).ttc ≠ none ∧
    (computeTTCLidar (lidarPairEx 9) (lidarPairEx 9) 10
        (-(10 ^ 9)) (-(10 ^ 9)) 0).ttc
      = some (lidarMinX (lidarPairEx 9) * (1 / 10) / 0) :=
  C3_lidar_zero_motion_amended (lidarPairEx 9) (lidarPairEx 9) 10
    (-(10 ^ 9)) (-(10 ^ 9)) rfl

/-- Claim C10: a call of computeTTCLidar with the ConstantVelocity model
(TTCcalModel = 0) and the velocity still at the -1e9 sentinel leaves both
vehicleVel and vehicleAcc unchanged; consequently a whole run threading
the state through constant-velocity calls starting from the sentinels
never modifies the kinematic state. -/
theorem C10_cv_state_untouched (prev curr : List LidarPoint)
    (frames : List (List LidarPoint × List LidarPoint)) (fr v a : ℝ)
    (hv : v = -(10 ^ 9)) :
    (computeTTCLidar prev curr fr v a 0).vel = v ∧
    (computeTTCLidar prev curr fr v a 0).acc = a ∧
    runLidarCV frames fr (-(10 ^ 9)) (-(10 ^ 9)) = (-(10 ^ 9), -(10 ^ 9)) := by
  subst hv
  exact ⟨(computeTTCLidar_cv_state prev curr fr a).1,
    (computeTTCLidar_cv_state prev curr fr a).2,
    runLidarCV_sentinel frames fr⟩

theorem C10_cv_state_untouched_witness :
    (computeTTCLidar (lidarPairEx 10) (lidarPairEx 9) 10 (-(10 ^ 9)) 7 0).vel
      = -(10 ^ 9) ∧
    (computeTTCLidar (lidarPairEx 10) (lidarPairEx 9) 10 (-(10 ^ 9)) 7 0).acc = 7 ∧
    runLidarCV [(lidarPairEx 10, lidarPairEx 9)] 10 (-(10 ^ 9)) (-(10 ^ 9))
      = (-(10 ^ 9), -(10 ^ 9)) :=
  C10_cv_state_untouched (lidarPairEx 10) (lidarPairEx 9)
    [(lidarPairEx 10, lidarPairEx 9)] 10 (-(10 ^ 9)) 7 rfl

/-- Claim C6 counterexample: with both velocity (-1) and acceleration (2)
known and current filtered minimum x equal to 0, the discriminant is
positive and the roots are 0 and 1 — exactly one root is positive — yet
the code reaches no branch (TTC1 > 0 fails, TTC1 < 0 fails) and leaves TTC
unassigned, where the claim requires the single positive root. -/
theorem C6_lidar_quadratic_counterexample :
    lidarMinX (lidarPairEx 0) = 0 ∧
    0 < quadD (-1) 2 0 ∧
    ttcRoot1 (-1) 2 0 = 0 ∧
    ttcRoot2 (-1) 2 0 = 1 ∧
    (computeTTCLidar (lidarPairEx 10) (lidarPairEx 0) 10 (-1) 2 1).ttc = none := by
  have hmin : lidarMinX (lidarPairEx 0) = 0 := lidarMinX_pair 0 (by norm_num)
  have hD : quadD (-1) 2 0 = 1 := by
    rw [quadD, quadB, quadC]; norm_num
  have hq1 : ttcRoot1 (-1) 2 0 = 0 := by
    rw [ttcRoot1, quadB, quadC]
    norm_num
  have hq2 : ttcRoot2 (-1) 2 0 = 1 := by
    rw [ttcRoot2, quadB, quadC]
    norm_num
  refine ⟨hmin, by rw [hD]; norm_num, hq1, hq2, ?_⟩
  have hbranch : (computeTTCLidar (lidarPairEx 10) (lidarPairEx 0) 10 (-1) 2 1).ttc
      = quadTTC (-1) 2 (lidarMinX (lidarPairEx 0)) := by
    norm_num [computeTTCLidar]
  rw [hbranch, hmin, quadTTC, if_pos (by rw [hD]; norm_num)]
  rw [if_neg (by rw [hq1]; simp), if_neg (by rw [hq1]; simp),
      if_neg (by rw [hq1]; simp)]

/-- Claim C6 (amended): in the ConstantAcceleration branch with velocity
and acceleration both known (and acceleration nonzero), the TTC is the
quadratic-branch result: with b = v/(0.5a), c = -minXCurr/(0.5a),
d = b²-4c, the roots TTC1 = (-b-√d)/2 and TTC2 = (-b+√d)/2 solve
0.5·a·t² + v·t = minXCurr; if d>0 the smaller root is chosen when both are
strictly positive, the strictly positive one when the other is strictly
negative, and TTC is left unassigned otherwise — in particular also when
one root is exactly zero and the other positive; if d=0 then
TTC = b/(-2); if d<0 TTC is left unassigned. -/
theorem C6_lidar_quadratic_amended (prev curr : List LidarPoint) (fr v a : ℝ)
    (hv : v ≠ -(10 ^ 9)) (ha : a ≠ -(10 ^ 9)) (ha0 : a ≠ 0) :
    (computeTTCLidar prev curr fr v a 1).ttc = quadTTC v a (lidarMinX curr) ∧
    (0 ≤ quadD v a (lidarMinX curr) →
      0.5 * a * ttcRoot1 v a (lidarMinX curr) ^ 2
          + v * ttcRoot1 v a (lidarMinX curr) - lidarMinX curr = 0 ∧
      0.5 * a * ttcRoot2 v a (lidarMinX curr) ^ 2
          + v * ttcRoot2 v a (lidarMinX curr) - lidarMinX curr = 0) ∧
    (0 < quadD v a (lidarMinX curr) →
      0 < ttcRoot1 v a (lidarMinX curr) → 0 < ttcRoot2 v a (lidarMinX curr) →
      quadTTC v a (lidarMinX curr)
        = some (min (ttcRoot1 v a (lidarMinX curr)) (ttcRoot2 v a (lidarMinX curr)))) ∧
    (0 < quadD v a (lidarMinX curr) →
      ttcRoot1 v a (lidarMinX curr) < 0 → 0 < ttcRoot2 v a (lidarMinX curr) →
      quadTTC v a (lidarMinX curr) = some (ttcRoot2 v a (lidarMinX curr))) ∧
    (0 < quadD v a (lidarMinX curr) →
      ¬ 0 < ttcRoot1 v a (lidarMinX curr) → ¬ 0 < ttcRoot2 v a (lidarMinX curr) →
      quadTTC v a (lidarMinX curr) = none) ∧
    (0 < quadD v a (lidarMinX curr) →
      ttcRoot1 v a (lidarMinX curr) = 0 → 0 < ttcRoot2 v a (lidarMinX curr) →
      quadTTC v a (lidarMinX curr) = none) ∧
    (quadD v a (lidarMinX curr) = 0 →
      quadTTC v a (lidarMinX curr) = some (quadB v a / (-2 * 1))) ∧
    (quadD v a (lidarMinX curr) < 0 → quadTTC v a (lidarMinX curr) = none) := by
  refine ⟨?_, quad_root_property v a (lidarMinX curr) ha0, ?_, ?_, ?_, ?_, ?_, ?_⟩
  · simp [computeTTCLidar, hv, ha]
  · intro hd h1 h2
    rw [quadTTC, if_pos hd, if_pos ⟨h1, h2⟩]
  · intro hd h1 h2
    rw [quadTTC, if_pos hd,
      if_neg (by rintro ⟨hc, -⟩; exact absurd hc (not_lt.mpr (le_of_lt h1))),
      if_neg (by rintro ⟨hc, -⟩; exact absurd hc (not_lt.mpr (le_of_lt h1))),
      if_pos ⟨h1, h2⟩]
  · intro hd h1 h2
    rw [quadTTC, if_pos hd,
      if_neg (by rintro ⟨hc, -⟩; exact h1 hc),
      if_neg (by rintro ⟨hc, -⟩; exact h1 hc),
      if_neg (by rintro ⟨-, hc⟩; exact h2 hc)]
  · intro hd h1 h2
    rw [quadTTC, if_pos hd,
      if_neg (by rintro ⟨hc, -⟩; rw [h1] at hc; exact lt_irrefl 0 hc),
      if_neg (by rintro ⟨hc, -⟩; rw [h1] at hc; exact lt_irrefl 0 hc),
      if_neg (by rintro ⟨hc, -⟩; rw [h1] at hc; exact lt_irrefl 0 hc)]
  · intro hd
    rw [quadTTC, if_neg (by rw [hd]; exact lt_irrefl 0), if_pos hd]
  · intro hd
    rw [quadTTC, if_neg (not_lt.mpr (le_of_lt hd)), if_neg (ne_of_lt hd)]

/-- Witness for C6 at v = -5, a = 2, minXCurr = -6: d = 1, roots 2 and 3,
both positive, and the code takes the smaller root 2. -/
theorem C6_lidar_quadratic_amended_witness :
    ((-5 : ℝ) ≠ -(10 ^ 9) ∧ (2 : ℝ) ≠ -(10 ^ 9) ∧ (2 : ℝ) ≠ 0) ∧
    (computeTTCLidar (lidarPairEx 10) (lidarPairEx (-6)) 10 (-5) 2 1).ttc
      = quadTTC (-5) 2 (lidarMinX (lidarPairEx (-6))) ∧
    (computeTTCLidar (lidarPairEx 10) (lidarPairEx (-6)) 10 (-5) 2 1).ttc = some 2 := by
  have hmin : lidarMinX (lidarPairEx (-6)) = -6 := lidarMinX_pair (-6) (by norm_num)
  have hthm := C6_lidar_quadratic_amended (lidarPairEx 10) (lidarPairEx (-6)) 10 (-5) 2
    (by norm_num) (by norm_num) (by norm_num)
  have hD : quadD (-5) 2 (-6) = 1 := by
    rw [quadD, quadB, quadC]; norm_num
  have hq1 : ttcRoot1 (-5) 2 (-6) = 2 := by
    rw [ttcRoot1, quadB, quadC]
    norm_num
  have hq2 : ttcRoot2 (-5) 2 (-6) = 3 := by
    rw [ttcRoot2, quadB, quadC]
    norm_num
  refine ⟨⟨by norm_num, by norm_num, by norm_num⟩, hthm.1, ?_⟩
  rw [hthm.1, hmin]
  have hsel := hthm.2.2.1
  rw [hmin] at hsel
  rw [hsel (by rw [hD]; norm_num) (by rw [hq1]; norm_num) (by rw [hq2]; norm_num),
    hq1, hq2]
  norm_num

/-- Claim C7 counterexample: a call with velocity known (3) and
acceleration still unknown (sentinel) under the ConstantAcceleration model
does NOT fall back to the ConstantVelocity formula: the code first
estimates the acceleration (2) and then computes this very frame's TTC
from the quadratic model, giving 1 s, while the ConstantVelocity formula
gives 1.25 s. -/
theorem C7_kinematic_counterexample :
    computeTTCLidar (lidarPairEx 4.32) (lidarPairEx 4) 10 3 (-(10 ^ 9)) 1
      = ⟨some 1, 3.2, 2⟩ ∧
    lidarMinX (lidarPairEx 4) * (1 / 10)
        / (lidarMinX (lidarPairEx 4.32) - lidarMinX (lidarPairEx 4)) = 5 / 4 ∧
    (1 : ℝ) ≠ 5 / 4 := by
  have hp : lidarMinX (lidarPairEx 4.32) = 4.32 := lidarMinX_pair 4.32 (by norm_num)
  have hc : lidarMinX (lidarPairEx 4) = 4 := lidarMinX_pair 4 (by norm_num)
  have h25 : Real.sqrt 25 = 5 := by
    rw [show (25 : ℝ) = 5 ^ 2 by norm_num]
    exact Real.sqrt_sq (by norm_num)
  have hquad : quadTTC 3 2 4 = some 1 := by
    have hD : quadD 3 2 4 = 25 := by rw [quadD, quadB, quadC]; norm_num
    have h1 : ttcRoot1 3 2 4 = -4 := by
      rw [ttcRoot1, quadB, quadC]; norm_num [h25]
    have h2 : ttcRoot2 3 2 4 = 1 := by
      rw [ttcRoot2, quadB, quadC]; norm_num [h25]
    rw [quadTTC, if_pos (by rw [hD]; norm_num),
      if_neg (by rw [h1, h2]; rintro ⟨hcon, -⟩; norm_num at hcon),
      if_neg (by rw [h1, h2]; rintro ⟨hcon, -⟩; norm_num at hcon),
      if_pos (by rw [h1, h2]; norm_num), h2]
  have hp2 : lidarMinX (lidarPairEx (108 / 25)) = 108 / 25 :=
    lidarMinX_pair (108 / 25) (by norm_num)
  refine ⟨?_, by rw [hp, hc]; norm_num, by norm_num⟩
  norm_num [computeTTCLidar, hp, hp2, hc, hquad]

/-- Claim C7 (amended): under the ConstantAcceleration model, when velocity
and acceleration are both unknown the frame's TTC falls back to the
ConstantVelocity formula and the velocity is set to
(minXPrev-minXCurr)/dT (Uninitialized → VelocityKnown); when velocity is
known but acceleration is not, the acceleration is first set to
(thisFrameVelocity - previousVelocity)/dT and the TTC of that same frame is
then computed from the constant-acceleration quadratic using the freshly
estimated acceleration — not the ConstantVelocity fallback — while
velocity advances to v + a·dT; once acceleration is known it is never
re-estimated, and the sentinel-encoded state progression never regresses
provided the newly stored values do not collide with the -1e9 sentinel. -/
theorem C7_kinematic_amended (prev curr : List LidarPoint) (fr v a : ℝ) :
    ((v = -(10 ^ 9) ∧ a = -(10 ^ 9)) →
      computeTTCLidar prev curr fr v a 1 =
        ⟨some (lidarMinX curr * (1 / fr) / (lidarMinX prev - lidarMinX curr)),
         (lidarMinX prev - lidarMinX curr) / (1 / fr), -(10 ^ 9)⟩) ∧
    ((v ≠ -(10 ^ 9) ∧ a = -(10 ^ 9)) →
      ((lidarMinX prev - lidarMinX curr) / (1 / fr) - v) / (1 / fr) ≠ -(10 ^ 9) →
      computeTTCLidar prev curr fr v a 1 =
        ⟨quadTTC v (((lidarMinX prev - lidarMinX curr) / (1 / fr) - v) / (1 / fr))
            (lidarMinX curr),
         v + (((lidarMinX prev - lidarMinX curr) / (1 / fr) - v) / (1 / fr)) * (1 / fr),
         ((lidarMinX prev - lidarMinX curr) / (1 / fr) - v) / (1 / fr)⟩) ∧
    (a ≠ -(10 ^ 9) → (computeTTCLidar prev curr fr v a 1).acc = a) ∧
    (((computeTTCLidar prev curr fr v a 1).vel ≠ -(10 ^ 9) ∨
      (computeTTCLidar prev curr fr v a 1).acc ≠ -(10 ^ 9) ∨
      (v = -(10 ^ 9) ∧ a = -(10 ^ 9))) →
      kinStateRank v a ≤
        kinStateRank (computeTTCLidar prev curr fr v a 1).vel
          (computeTTCLidar prev curr fr v a 1).acc) := by
  refine ⟨?_, ?_, ?_, ?_⟩
  · rintro ⟨hv, ha⟩
    subst hv ha
    unfold computeTTCLidar
    dsimp only
    split_ifs with h1 h2 h3 h4 h5 h6
    all_goals first
      | rfl
      | (exfalso; simp_all)
  · rintro ⟨hv, ha⟩ hne
    subst ha
    unfold computeTTCLidar
    dsimp only
    split_ifs with h1 h2 h3 h4 h5 h6
    all_goals first
      | rfl
      | (exfalso; simp_all)
  · intro ha
    unfold computeTTCLidar
    dsimp only
    split_ifs with h1 h2 h3 h4 h5 h6
    all_goals first
      | rfl
      | (exfalso; simp_all)
  · intro hsafe
    by_cases ha : a = -(10 ^ 9)
    · by_cases hv : v = -(10 ^ 9)
      · subst hv ha
        simp [kinStateRank]
      · subst ha
        have hrank : kinStateRank v (-(10 ^ 9)) = 1 := by
          simp [kinStateRank, hv]
        rw [hrank]
        obtain ⟨E, hEdef⟩ :
            ∃ E, ((lidarMinX prev - lidarMinX curr) / (1 / fr) - v) / (1 / fr) = E :=
          ⟨_, rfl⟩
        by_cases hE : E = -(10 ^ 9)
        · -- the computed acceleration collides with the sentinel:
          -- CV fallback, the state stays at rank 1 unless the stored
          -- velocity also collides, which hsafe rules out
          have hres : computeTTCLidar prev curr fr v (-(10 ^ 9)) 1 =
              ⟨some (lidarMinX curr * (1 / fr) / (lidarMinX prev - lidarMinX curr)),
               v + E * (1 / fr), E⟩ := by
            unfold computeTTCLidar
            dsimp only
            rw [hEdef]
            split_ifs with h1 h2 h3 h4 h5 h6
            all_goals first
              | rfl
              | (exfalso; simp_all)
          rw [hres] at hsafe ⊢
          rcases hsafe with h | h | h
          · simp only [kinStateRank] at h ⊢
            rw [if_neg (fun hcon => hcon hE), if_pos h]
          · exact absurd hE (by simpa using h)
          · exact absurd h.1 hv
        · have hres : computeTTCLidar prev curr fr v (-(10 ^ 9)) 1 =
              ⟨quadTTC v E (lidarMinX curr), v + E * (1 / fr), E⟩ := by
            unfold computeTTCLidar
            dsimp only
            rw [hEdef]
            split_ifs with h1 h2 h3 h4 h5 h6
            all_goals first
              | rfl
              | (exfalso; simp_all)
          rw [hres]
          have hr2 : kinStateRank (v + E * (1 / fr)) E = 2 := by
            simp only [kinStateRank]
            rw [if_pos hE]
          rw [hr2]
          norm_num
    · have hacc : (computeTTCLidar prev curr fr v a 1).acc = a := by
        unfold computeTTCLidar
        dsimp only
        split_ifs with h1 h2 h3 h4 h5 h6
        all_goals first
          | rfl
          | (exfalso; simp_all)
      have h2 : kinStateRank (computeTTCLidar prev curr fr v a 1).vel
          (computeTTCLidar prev curr fr v a 1).acc = 2 := by
        simp only [kinStateRank]
        rw [hacc, if_pos ha]
      rw [h2]
      simp only [kinStateRank]
      split_ifs <;> norm_num

theorem C7_kinematic_amended_witness :
    ((3 : ℝ) ≠ -(10 ^ 9) ∧ (-(10 ^ 9) : ℝ) = -(10 ^ 9)) ∧
    ((lidarMinX (lidarPairEx 4.32) - lidarMinX (lidarPairEx 4)) / (1 / 10) - 3) / (1 / 10)
      ≠ -(10 ^ 9) ∧
    computeTTCLidar (lidarPairEx 4.32) (lidarPairEx 4) 10 3 (-(10 ^ 9)) 1 =
      ⟨quadTTC 3
          (((lidarMinX (lidarPairEx 4.32) - lidarMinX (lidarPairEx 4)) / (1 / 10) - 3)
            / (1 / 10)) (lidarMinX (lidarPairEx 4)),
       3 + (((lidarMinX (lidarPairEx 4.32) - lidarMinX (lidarPairEx 4)) / (1 / 10) - 3)
            / (1 / 10)) * (1 / 10),
       ((lidarMinX (lidarPairEx 4.32) - lidarMinX (lidarPairEx 4)) / (1 / 10) - 3)
         / (1 / 10)⟩ := by
  have hp : lidarMinX (lidarPairEx 4.32) = 4.32 := lidarMinX_pair 4.32 (by norm_num)
  have hc : lidarMinX (lidarPairEx 4) = 4 := lidarMinX_pair 4 (by norm_num)
  have hne : (((lidarMinX (lidarPairEx 4.32) - lidarMinX (lidarPairEx 4)) / (1 / 10) - 3)
      / (1 / 10) : ℝ) ≠ -(10 ^ 9) := by
    rw [hp, hc]; norm_num
  exact ⟨⟨by norm_num, rfl⟩, hne,
    (C7_kinematic_amended (lidarPairEx 4.32) (lidarPairEx 4) 10 3 (-(10 ^ 9))).2.1
      ⟨by norm_num, rfl⟩ hne⟩

/-! ## clusterKptMatchesWithROI (camFusion_Student.cpp lines 138-183)

Pass 1 computes mean and standard deviation of the keypoint displacement
over the WHOLE match list; pass 2 keeps a match iff both endpoints lie in
the 10%-shrunk box and the displacement is inside mean ± 1.7·std. -/

/-- Displacement distance of one match:
cv::norm(kpCurr.pt - kpPrev.pt), with kpCurr = kptsCurr.at(trainIdx) and
kpPrev = kptsPrev.at(queryIdx). -/
def kptDist (kptsPrev kptsCurr : List KeyPoint) (m : DMatch) : ℝ :=
  normPt (kptsCurr.getD m.trainIdx default).pt (kptsPrev.getD m.queryIdx default).pt

/-- distMean = distSum / kptMatches.size(). -/
def kptDistMean (kptsPrev kptsCurr : List KeyPoint) (ms : List DMatch) : ℝ :=
  (ms.foldl (fun s m => s + kptDist kptsPrev kptsCurr m) 0) / ms.length

/-- distStd = sqrt(distSqSum/size - distMean²). -/
def kptDistStd (kptsPrev kptsCurr : List KeyPoint) (ms : List DMatch) : ℝ :=
  Real.sqrt ((ms.foldl (fun s m => s + (kptDist kptsPrev kptsCurr m) ^ 2) 0) / ms.length
    - (kptDistMean kptsPrev kptsCurr ms) ^ 2)

/-- cv::Rect::contains applied to a float point: the point is converted to
integer coordinates with cvRound (saturate_cast), then the half-open
integer test runs. -/
def containsPt2f (r : RectI) (p : Point2) : Prop :=
  rectContains r (cvRound p.x) (cvRound p.y)

/-- clusterKptMatchesWithROI: passes over kptMatches appending the
surviving matches to boundingBox.kptMatches. -/
def clusterKptMatchesWithROI (boundingBox : BoundingBox)
    (kptsPrev kptsCurr : List KeyPoint) (kptMatches : List DMatch) : BoundingBox :=
  let distMean := kptDistMean kptsPrev kptsCurr kptMatches
  let distStd := kptDistStd kptsPrev kptsCurr kptMatches
  let smallerBox := shrinkRect boundingBox.roi 0.1
  kptMatches.foldl (fun b m =>
    let kpCurr := kptsCurr.getD m.trainIdx default
    let kpPrev := kptsPrev.getD m.queryIdx default
    if containsPt2f smallerBox kpCurr.pt ∧ containsPt2f smallerBox kpPrev.pt then
      (if kptDist kptsPrev kptsCurr m > distMean - 1.7 * distStd ∧
          kptDist kptsPrev kptsCurr m < distMean + 1.7 * distStd
       then { b with kptMatches := b.kptMatches ++ [m] } else b)
    else b) boundingBox

lemma cluster_foldl_filter (kptsPrev kptsCurr : List KeyPoint)
    (distMean distStd : ℝ) (smallerBox : RectI) (l : List DMatch) :
    ∀ b : BoundingBox,
      (l.foldl (fun b m =>
        if containsPt2f smallerBox (kptsCurr.getD m.trainIdx default).pt ∧
           containsPt2f smallerBox (kptsPrev.getD m.queryIdx default).pt then
          (if kptDist kptsPrev kptsCurr m > distMean - 1.7 * distStd ∧
              kptDist kptsPrev kptsCurr m < distMean + 1.7 * distStd
           then { b with kptMatches := b.kptMatches ++ [m] } else b)
        else b) b)
      = { b with kptMatches := b.kptMatches ++ l.filter (fun m =>
          decide (containsPt2f smallerBox (kptsCurr.getD m.trainIdx default).pt ∧
            containsPt2f smallerBox (kptsPrev.getD m.queryIdx default).pt ∧
            kptDist kptsPrev kptsCurr m > distMean - 1.7 * distStd ∧
            kptDist kptsPrev kptsCurr m < distMean + 1.7 * distStd)) } := by
  induction l with
  | nil => intro b; simp
  | cons m rest ih =>
    intro b
    rw [List.foldl_cons]
    by_cases hc : containsPt2f smallerBox (kptsCurr.getD m.trainIdx default).pt ∧
        containsPt2f smallerBox (kptsPrev.getD m.queryIdx default).pt
    · by_cases hd : kptDist kptsPrev kptsCurr m > distMean - 1.7 * distStd ∧
          kptDist kptsPrev kptsCurr m < distMean + 1.7 * distStd
      · rw [if_pos hc, if_pos hd,
          List.filter_cons_of_pos
            (by simp only [decide_eq_true_eq]; exact ⟨hc.1, hc.2, hd.1, hd.2⟩), ih]
        simp
      · rw [if_pos hc, if_neg hd,
          List.filter_cons_of_neg (by
            simp only [decide_eq_true_eq, not_and]
            intro _ _ h1 h2
            exact hd ⟨h1, h2⟩), ih]
    · rw [if_neg hc,
        List.filter_cons_of_neg (by
          simp only [decide_eq_true_eq, not_and]
          intro h1 h2
          exact absurd ⟨h1, h2⟩ hc), ih]

/-- Claim C9: clusterKptMatchesWithROI keeps a correspondence iff both its
current and previous pixel positions lie inside the box's rectangle shrunk
by the fixed 10% factor and its displacement distance lies strictly within
mean ± 1.7·stddev, where mean and stddev are computed over every
correspondence handed to the function (the whole frame's match list), the
survivors being appended to the box's match list in order. -/
theorem C9_cluster_kpt_filter (boundingBox : BoundingBox)
    (kptsPrev kptsCurr : List KeyPoint) (kptMatches : List DMatch) :
    (clusterKptMatchesWithROI boundingBox kptsPrev kptsCurr kptMatches).kptMatches
      = boundingBox.kptMatches ++ kptMatches.filter (fun m =>
          decide (containsPt2f (shrinkRect boundingBox.roi 0.1)
              (kptsCurr.getD m.trainIdx default).pt ∧
            containsPt2f (shrinkRect boundingBox.roi 0.1)
              (kptsPrev.getD m.queryIdx default).pt ∧
            kptDist kptsPrev kptsCurr m
              > kptDistMean kptsPrev kptsCurr kptMatches
                - 1.7 * kptDistStd kptsPrev kptsCurr kptMatches ∧
            kptDist kptsPrev kptsCurr m
              < kptDistMean kptsPrev kptsCurr kptMatches
                + 1.7 * kptDistStd kptsPrev kptsCurr kptMatches)) ∧
    (∀ m : DMatch,
      m ∈ (clusterKptMatchesWithROI boundingBox kptsPrev kptsCurr kptMatches).kptMatches
        ↔ m ∈ boundingBox.kptMatches ∨
          (m ∈ kptMatches ∧
            containsPt2f (shrinkRect boundingBox.roi 0.1)
              (kptsCurr.getD m.trainIdx default).pt ∧
            containsPt2f (shrinkRect boundingBox.roi 0.1)
              (kptsPrev.getD m.queryIdx default).pt ∧
            kptDist kptsPrev kptsCurr m
              > kptDistMean kptsPrev kptsCurr kptMatches
                - 1.7 * kptDistStd kptsPrev kptsCurr kptMatches ∧
            kptDist kptsPrev kptsCurr m
              < kptDistMean kptsPrev kptsCurr kptMatches
                + 1.7 * kptDistStd kptsPrev kptsCurr kptMatches)) := by
  have h := cluster_foldl_filter kptsPrev kptsCurr
    (kptDistMean kptsPrev kptsCurr kptMatches)
    (kptDistStd kptsPrev kptsCurr kptMatches)
    (shrinkRect boundingBox.roi 0.1) kptMatches boundingBox
  have hmain : (clusterKptMatchesWithROI boundingBox kptsPrev kptsCurr kptMatches).kptMatches
      = boundingBox.kptMatches ++ kptMatches.filter (fun m =>
          decide (containsPt2f (shrinkRect boundingBox.roi 0.1)
              (kptsCurr.getD m.trainIdx default).pt ∧
            containsPt2f (shrinkRect boundingBox.roi 0.1)
              (kptsPrev.getD m.queryIdx default).pt ∧
            kptDist kptsPrev kptsCurr m
              > kptDistMean kptsPrev kptsCurr kptMatches
                - 1.7 * kptDistStd kptsPrev kptsCurr kptMatches ∧
            kptDist kptsPrev kptsCurr m
              < kptDistMean kptsPrev kptsCurr kptMatches
                + 1.7 * kptDistStd kptsPrev kptsCurr kptMatches)) := by
    rw [clusterKptMatchesWithROI]
    rw [h]
  refine ⟨hmain, ?_⟩
  intro m
  rw [hmain, List.mem_append, List.mem_filter]
  simp only [decide_eq_true_eq]

/-! ## computeTTCCamera (camFusion_Student.cpp lines 186-241)

Outer loop it1 over [begin, end-1), inner loop it2 over [begin+1, end) —
the inner loop restarts at the SECOND element of the whole list, not at
it1+1, so a pair of distinct interior correspondences is visited twice.
For an empty match list the C++ bound end()-1 underflows (undefined
behaviour); the model treats both loops as empty in that case. -/

/-- std::numeric_limits<double>::epsilon() = 2^-52. -/
def epsD : ℝ := 1 / 2 ^ 52

/-- The distance-ratio collection loop.  minDist = 100.0; a pair
contributes distCurr/distPrev iff distPrev > epsilon and
distCurr >= minDist. -/
def camRatios (kptsPrev kptsCurr : List KeyPoint) (ms : List DMatch) : List ℝ :=
  (List.range (ms.length - 1)).foldl (fun acc i =>
    (List.range' 1 (ms.length - 1)).foldl (fun acc2 j =>
      let distCurr := normPt ((kptsCurr.getD (ms.getD i default).trainIdx default).pt)
        ((kptsCurr.getD (ms.getD j default).trainIdx default).pt)
      let distPrev := normPt ((kptsPrev.getD (ms.getD i default).queryIdx default).pt)
        ((kptsPrev.getD (ms.getD j default).queryIdx default).pt)
      if distPrev > epsD ∧ distCurr ≥ 100 then acc2 ++ [distCurr / distPrev] else acc2)
      acc) []

/-- computeTTCCamera: NaN (modelled none) when no ratio was collected;
otherwise sort, take the median (average of the two central elements for
even counts, via the indices size/2 and (size-1)/2), and
TTC = -dT / (1 - medianDistRatio). -/
def computeTTCCamera (kptsPrev kptsCurr : List KeyPoint) (ms : List DMatch)
    (frameRate : ℝ) : Option ℝ :=
  let distRatios := camRatios kptsPrev kptsCurr ms
  if distRatios.length = 0 then none
  else
    let sorted := distRatios.insertionSort (· ≤ ·)
    let medianDistRatio :=
      if distRatios.length % 2 = 1 then sorted.getD (distRatios.length / 2) 0
      else (sorted.getD (distRatios.length / 2) 0
        + sorted.getD ((distRatios.length - 1) / 2) 0) / 2
    some (-(1 / frameRate) / (1 - medianDistRatio))

/-- The ratio collection as the claim describes it: every unordered pair
exactly once (inner loop from i+1).  Follows the claim's words, for
comparison with camRatios; it is not what the code computes. -/
def camRatiosClaim (kptsPrev kptsCurr : List KeyPoint) (ms : List DMatch) : List ℝ :=
  (List.range ms.length).foldl (fun acc i =>
    (List.range' (i + 1) (ms.length - (i + 1))).foldl (fun acc2 j =>
      let distCurr := normPt ((kptsCurr.getD (ms.getD i default).trainIdx default).pt)
        ((kptsCurr.getD (ms.getD j default).trainIdx default).pt)
      let distPrev := normPt ((kptsPrev.getD (ms.getD i default).queryIdx default).pt)
        ((kptsPrev.getD (ms.getD j default).queryIdx default).pt)
      if distPrev > epsD ∧ distCurr ≥ 100 then acc2 ++ [distCurr / distPrev] else acc2)
      acc) []

/-- computeTTCCamera as the claim describes it (pairs visited once). -/
def computeTTCCameraClaim (kptsPrev kptsCurr : List KeyPoint) (ms : List DMatch)
    (frameRate : ℝ) : Option ℝ :=
  let distRatios := camRatiosClaim kptsPrev kptsCurr ms
  if distRatios.length = 0 then none
  else
    let sorted := distRatios.insertionSort (· ≤ ·)
    let medianDistRatio :=
      if distRatios.length % 2 = 1 then sorted.getD (distRatios.length / 2) 0
      else (sorted.getD (distRatios.length / 2) 0
        + sorted.getD ((distRatios.length - 1) / 2) 0) / 2
    some (-(1 / frameRate) / (1 - medianDistRatio))

lemma normPt_xaxis (a b : ℝ) : normPt ⟨a, 0⟩ ⟨b, 0⟩ = |a - b| := by
  rw [normPt]
  dsimp only
  rw [show (a - b) ^ 2 + ((0 : ℝ) - 0) ^ 2 = (a - b) ^ 2 by ring]
  exact Real.sqrt_sq_eq_abs (a - b)

/-- Keypoints of the concrete four-match camera example: previous
positions 0, 100, 200, 300 on the image x-axis. -/
def camKptsPrev : List KeyPoint := [⟨⟨0, 0⟩⟩, ⟨⟨100, 0⟩⟩, ⟨⟨200, 0⟩⟩, ⟨⟨300, 0⟩⟩]

/-- Current positions 0, 120, 300, 480 on the image x-axis. -/
def camKptsCurr : List KeyPoint := [⟨⟨0, 0⟩⟩, ⟨⟨120, 0⟩⟩, ⟨⟨300, 0⟩⟩, ⟨⟨480, 0⟩⟩]

/-- The identity matching of the four keypoints. -/
def camMatchesEx : List DMatch := [⟨0, 0⟩, ⟨1, 1⟩, ⟨2, 2⟩, ⟨3, 3⟩]

lemma camRatios_ex :
    camRatios camKptsPrev camKptsCurr camMatchesEx
      = [6 / 5, 3 / 2, 8 / 5, 9 / 5, 9 / 5, 9 / 5, 9 / 5] := by
  have hr3 : List.range 3 = [0, 1, 2] := rfl
  have hr13 : List.range' 1 3 = [1, 2, 3] := rfl
  norm_num [camRatios, camKptsPrev, camKptsCurr, camMatchesEx, hr3, hr13,
    List.foldl, List.getD, normPt_xaxis, epsD]

lemma camRatiosClaim_ex :
    camRatiosClaim camKptsPrev camKptsCurr camMatchesEx
      = [6 / 5, 3 / 2, 8 / 5, 9 / 5, 9 / 5, 9 / 5] := by
  have hr4 : List.range 4 = [0, 1, 2, 3] := rfl
  have ha : List.range' 1 3 = [1, 2, 3] := rfl
  have hb : List.range' 2 2 = [2, 3] := rfl
  have hc : List.range' 3 1 = [3] := rfl
  have hd : List.range' 4 0 = [] := rfl
  norm_num [camRatiosClaim, camKptsPrev, camKptsCurr, camMatchesEx, hr4, ha, hb, hc, hd,
    List.foldl, List.getD, normPt_xaxis, epsD]

lemma insertionSort_eq_of_sorted (l L : List ℝ) (hperm : l.Perm L)
    (hsort : L.Sorted (· ≤ ·)) : l.insertionSort (· ≤ ·) = L :=
  List.eq_of_perm_of_sorted ((List.perm_insertionSort _ l).trans hperm)
    (List.sorted_insertionSort _ l) hsort

lemma camSorted7 :
    ([6 / 5, 3 / 2, 8 / 5, 9 / 5, 9 / 5, 9 / 5, 9 / 5] : List ℝ).Sorted (· ≤ ·) := by
  norm_num [List.sorted_cons]

lemma camSorted6 :
    ([6 / 5, 3 / 2, 8 / 5, 9 / 5, 9 / 5, 9 / 5] : List ℝ).Sorted (· ≤ ·) := by
  norm_num [List.sorted_cons]

/-- Claim C4 counterexample: on four matches placed so that every pair
passes the filters, the code's inner loop (restarting at the second
element) collects the ratio of the interior pair {1,2} twice — seven
ratios instead of the six unordered pairs — shifting the median: the
code returns TTC = 1/8 s while the procedure described by the claim
(each unordered pair once) returns 1/7 s. -/
theorem C4_camera_counterexample :
    computeTTCCamera camKptsPrev camKptsCurr camMatchesEx 10 = some (1 / 8) ∧
    computeTTCCameraClaim camKptsPrev camKptsCurr camMatchesEx 10 = some (1 / 7) ∧
    ¬ (some ((1 : ℝ) / 8) = some ((1 : ℝ) / 7)) := by
  refine ⟨?_, ?_, by norm_num⟩
  · have hsortEq : ([6 / 5, 3 / 2, 8 / 5, 9 / 5, 9 / 5, 9 / 5, 9 / 5] :
        List ℝ).insertionSort (· ≤ ·)
        = [6 / 5, 3 / 2, 8 / 5, 9 / 5, 9 / 5, 9 / 5, 9 / 5] :=
      insertionSort_eq_of_sorted _ _ (List.Perm.refl _) camSorted7
    simp only [computeTTCCamera, camRatios_ex]
    rw [hsortEq]
    norm_num [List.getD]
  · have hsortEq : ([6 / 5, 3 / 2, 8 / 5, 9 / 5, 9 / 5, 9 / 5] :
        List ℝ).insertionSort (· ≤ ·)
        = [6 / 5, 3 / 2, 8 / 5, 9 / 5, 9 / 5, 9 / 5] :=
      insertionSort_eq_of_sorted _ _ (List.Perm.refl _) camSorted6
    simp only [computeTTCCameraClaim, camRatiosClaim_ex]
    rw [hsortEq]
    norm_num [List.getD]

/-- Claim C4 (amended): computeTTCCamera collects the ratio
distCurr/distPrev over the ordered index pairs (i, j) with i ranging over
all but the last match and j restarting at the second match — so each
unordered pair of distinct correspondences with both indices interior is
collected twice, self-pairs are always skipped by the 100 px threshold —
skipping a pair iff distPrev ≤ epsilon (2^-52) or distCurr < 100 px; it
returns the NaN marker (none) when no ratio is collected, and otherwise
TTC = -dT/(1 - m) where m is the median of the collected ratios in sorted
order, the average of the two central values when the count is even. -/
theorem C4_camera_ttc_amended (kptsPrev kptsCurr : List KeyPoint) (ms : List DMatch)
    (fr : ℝ) (L : List ℝ)
    (hperm : (camRatios kptsPrev kptsCurr ms).Perm L)
    (hsort : L.Sorted (· ≤ ·)) :
    (L = [] → computeTTCCamera kptsPrev kptsCurr ms fr = none) ∧
    (L ≠ [] → computeTTCCamera kptsPrev kptsCurr ms fr
        = some (-(1 / fr) / (1 -
            (if L.length % 2 = 1 then L.getD (L.length / 2) 0
             else (L.getD (L.length / 2) 0 + L.getD ((L.length - 1) / 2) 0) / 2)))) := by
  have hlen : (camRatios kptsPrev kptsCurr ms).length = L.length := hperm.length_eq
  have hsortEq : (camRatios kptsPrev kptsCurr ms).insertionSort (· ≤ ·) = L :=
    insertionSort_eq_of_sorted _ _ hperm hsort
  constructor
  · intro hL
    subst hL
    have h0 : (camRatios kptsPrev kptsCurr ms).length = 0 := by rw [hlen]; rfl
    simp only [computeTTCCamera]
    rw [if_pos h0]
  · intro hL
    have h0 : ¬ (camRatios kptsPrev kptsCurr ms).length = 0 := by
      rw [hlen]
      exact fun hc => hL (List.length_eq_zero.mp hc)
    simp only [computeTTCCamera]
    rw [if_neg h0, hsortEq, hlen]

/-- Witness for C4 (amended) at the four-match example: the sorted ratio
list has seven entries with median 9/5, so TTC = -0.1/(1 - 9/5) = 1/8. -/
theorem C4_camera_ttc_amended_witness :
    (camRatios camKptsPrev camKptsCurr camMatchesEx).Perm
        [6 / 5, 3 / 2, 8 / 5, 9 / 5, 9 / 5, 9 / 5, 9 / 5] ∧
    ([6 / 5, 3 / 2, 8 / 5, 9 / 5, 9 / 5, 9 / 5, 9 / 5] : List ℝ).Sorted (· ≤ ·) ∧
    computeTTCCamera camKptsPrev camKptsCurr camMatchesEx 10 = some (1 / 8) := by
  have hperm : (camRatios camKptsPrev camKptsCurr camMatchesEx).Perm
      [6 / 5, 3 / 2, 8 / 5, 9 / 5, 9 / 5, 9 / 5, 9 / 5] := by
    rw [camRatios_ex]
  refine ⟨hperm, camSorted7, ?_⟩
  have h := (C4_camera_ttc_amended camKptsPrev camKptsCurr camMatchesEx 10
    [6 / 5, 3 / 2, 8 / 5, 9 / 5, 9 / 5, 9 / 5, 9 / 5] hperm camSorted7).2 (by simp)
  rw [h]
  norm_num [List.getD]

/-- Claim C2 counterexample: on empty RangePoint lists computeTTCLidar does
not short-circuit: the band statistics are formed with divisions by the
zero list size, the filtered minima remain at the 1e9 initialiser, and the
TTC is still assigned through the constant-velocity division whose
denominator minXPrev - minXCurr is zero (+infinity in IEEE arithmetic) —
no "unavailable" marker is produced before the division. -/
theorem C2_degenerate_counterexample :
    (computeTTCLidar [] [] 10 (-(10 ^ 9)) (-(10 ^ 9)) 0).ttc ≠ none ∧
    lidarMinX [] = 10 ^ 9 ∧
    lidarMinX [] - lidarMinX [] = 0 := by
  refine ⟨?_, rfl, by ring⟩
  simp [computeTTCLidar]

/-- Claim C2 (amended): the estimators do not short-circuit on empty
inputs.  computeTTCLidar on empty point lists still assigns
TTC = minXCurr*dT/(minXPrev-minXCurr) with both minima at the 1e9
sentinel (zero denominator, +infinity under IEEE); clusterKptMatchesWithROI
on an empty correspondence list computes its statistics (dividing by the
zero size) and returns the box unchanged; computeTTCCamera yields the NaN
marker whenever no ratio pair is collected (e.g. a single-match list —
for a literally empty list the C++ loop bound end()-1 underflows, which
the model renders as an empty loop); each estimator reads only its own
object pair's data, so one pair's empty input cannot affect another. -/
theorem C2_degenerate_amended :
    (∀ fr v a : ℝ,
      (computeTTCLidar [] [] fr v a 0).ttc
        = some (10 ^ 9 * (1 / fr) / (10 ^ 9 - 10 ^ 9))) ∧
    (∀ fr v a : ℝ, (computeTTCLidar [] [] fr v a 0).ttc ≠ none) ∧
    (∀ (kptsPrev kptsCurr : List KeyPoint) (m : DMatch) (fr : ℝ),
      computeTTCCamera kptsPrev kptsCurr [m] fr = none) ∧
    (∀ (boundingBox : BoundingBox) (kptsPrev kptsCurr : List KeyPoint),
      clusterKptMatchesWithROI boundingBox kptsPrev kptsCurr [] = boundingBox) := by
  have h1 : ∀ fr v a : ℝ,
      (computeTTCLidar [] [] fr v a 0).ttc
        = some (10 ^ 9 * (1 / fr) / (10 ^ 9 - 10 ^ 9)) := by
    intro fr v a
    rfl
  refine ⟨h1, fun fr v a => ?_, fun kptsPrev kptsCurr m fr => rfl,
    fun boundingBox kptsPrev kptsCurr => rfl⟩
  rw [h1 fr v a]
  exact Option.some_ne_none _

/-! ## clusterLidarWithROI (camFusion_Student.cpp lines 15-62)

Each lidar point is projected through Y = P_rect * R_rect * RT * X and the
pixel (Y0/Y2, Y1/Y2) is truncated into the int fields of cv::Point; the
point is appended to a box's cluster iff its pixel is contained in exactly
one shrunken box. -/

/-- The projected pixel of a lidar point. -/
def projectPixel (P : Matrix (Fin 3) (Fin 4) ℝ) (R RT : Matrix (Fin 4) (Fin 4) ℝ)
    (p : LidarPoint) : ℤ × ℤ :=
  let Y := (P * R * RT).mulVec ![p.x, p.y, p.z, 1]
  (dtrunc (Y 0 / Y 2), dtrunc (Y 1 / Y 2))

/-- smallerBox.contains(pt) for one box. -/
def pixInShrunk (s : ℝ) (b : BoundingBox) (pt : ℤ × ℤ) : Prop :=
  rectContains (shrinkRect b.roi s) pt.1 pt.2

instance (s : ℝ) (b : BoundingBox) (pt : ℤ × ℤ) : Decidable (pixInShrunk s b pt) := by
  unfold pixInShrunk; infer_instance

/-- enclosingBoxes.size(): how many of the boxes contain the pixel in
their shrunken form. -/
def enclosingCount (boxes : List BoundingBox) (s : ℝ) (pt : ℤ × ℤ) : ℕ :=
  (boxes.filter (fun b => decide (pixInShrunk s b pt))).length

/-- clusterLidarWithROI: the point is appended to the single enclosing box
when enclosingBoxes.size() == 1, otherwise to none. -/
def clusterLidarWithROI (boundingBoxes : List BoundingBox)
    (lidarPoints : List LidarPoint) (shrinkFactor : ℝ)
    (P : Matrix (Fin 3) (Fin 4) ℝ) (R RT : Matrix (Fin 4) (Fin 4) ℝ) :
    List BoundingBox :=
  lidarPoints.foldl (fun bxs p =>
    let pt := projectPixel P R RT p
    if enclosingCount bxs shrinkFactor pt = 1 then
      bxs.map (fun b =>
        if pixInShrunk shrinkFactor b pt
        then { b with lidarPoints := b.lidarPoints ++ [p] } else b)
    else bxs) boundingBoxes

/-- "Strictly inside" as the claim words it: all four boundary edges
excluded. -/
def strictlyInside (r : RectI) (px py : ℤ) : Prop :=
  r.x < px ∧ px < r.x + r.width ∧ r.y < py ∧ py < r.y + r.height

/-- Projection matrix used by the counterexample: the camera axes read the
x and y sensor coordinates directly and the homogeneous coordinate is 1. -/
def projP : Matrix (Fin 3) (Fin 4) ℝ := !![1, 0, 0, 0; 0, 1, 0, 0; 0, 0, 0, 1]

lemma projP_pixel : projectPixel projP 1 1 ⟨5, 50, 0, 1⟩ = (5, 50) := by
  rw [projectPixel]
  have hY : (projP * (1 : Matrix (Fin 4) (Fin 4) ℝ)
      * (1 : Matrix (Fin 4) (Fin 4) ℝ)).mulVec ![(5 : ℝ), 50, 0, 1]
      = ![5, 50, 1] := by
    rw [Matrix.mul_one, Matrix.mul_one]
    funext i
    fin_cases i <;>
      simp [projP, Matrix.mulVec, Matrix.dotProduct, Fin.sum_univ_four]
  rw [hY]
  show (dtrunc ((5 : ℝ) / 1), dtrunc ((50 : ℝ) / 1)) = (5, 50)
  norm_num [dtrunc]

lemma shrink_ex : shrinkRect ⟨0, 0, 100, 100⟩ 0.1 = ⟨5, 5, 90, 90⟩ := by
  rw [shrinkRect]
  norm_num [dtrunc]

/-- Claim C8 counterexample: the pixel (5,50) of the point (5,50,0,1) lies
exactly on the left edge of the only shrunken rectangle (5,5,90,90) — so
it is strictly inside zero shrunken rectangles and the claim assigns it to
no cluster — yet cv::Rect::contains is half-open (left/top edges
included) and the code appends the point to the cluster. -/
theorem C8_cluster_lidar_counterexample :
    clusterLidarWithROI [⟨0, ⟨0, 0, 100, 100⟩, [], []⟩] [⟨5, 50, 0, 1⟩] 0.1 projP 1 1
      = [⟨0, ⟨0, 0, 100, 100⟩, [⟨5, 50, 0, 1⟩], []⟩] ∧
    projectPixel projP 1 1 ⟨5, 50, 0, 1⟩ = (5, 50) ∧
    shrinkRect ⟨0, 0, 100, 100⟩ 0.1 = ⟨5, 5, 90, 90⟩ ∧
    ¬ strictlyInside ⟨5, 5, 90, 90⟩ 5 50 := by
  have hpix : pixInShrunk 0.1 ⟨0, ⟨0, 0, 100, 100⟩, [], []⟩ (5, 50) := by
    rw [pixInShrunk, shrink_ex]
    exact ⟨le_refl 5, by norm_num, by norm_num, by norm_num⟩
  refine ⟨?_, projP_pixel, shrink_ex, by simp [strictlyInside]⟩
  rw [clusterLidarWithROI, List.foldl_cons, List.foldl_nil, projP_pixel]
  rw [if_pos (by rw [enclosingCount, List.filter_cons_of_pos (by simp [hpix]),
    List.filter_nil]; rfl)]
  rw [List.map_cons, List.map_nil, if_pos hpix]
  rfl

lemma pixInShrunk_roi_eq (s : ℝ) (q : ℤ × ℤ) (b b2 : BoundingBox)
    (h : b.roi = b2.roi) : pixInShrunk s b q ↔ pixInShrunk s b2 q := by
  rw [pixInShrunk, pixInShrunk, h]

lemma enclosingCount_map (boxes : List BoundingBox) (g : BoundingBox → BoundingBox)
    (hg : ∀ b, (g b).roi = b.roi) (s : ℝ) (q : ℤ × ℤ) :
    enclosingCount (boxes.map g) s q = enclosingCount boxes s q := by
  rw [enclosingCount, enclosingCount]
  induction boxes with
  | nil => rfl
  | cons b rest ih =>
    have hiff : decide (pixInShrunk s (g b) q) = decide (pixInShrunk s b q) := by
      simp only [decide_eq_decide]
      exact pixInShrunk_roi_eq s q (g b) b (hg b)
    by_cases hb : decide (pixInShrunk s b q) = true
    · simp [List.filter_cons, hiff, hb, ih]
    · have hb2 := eq_false_of_ne_true hb
      simp [List.filter_cons, hiff, hb2, ih]

lemma clusterLidar_char (s : ℝ) (P : Matrix (Fin 3) (Fin 4) ℝ)
    (R RT : Matrix (Fin 4) (Fin 4) ℝ) :
    ∀ (pts : List LidarPoint) (boxes : List BoundingBox),
      clusterLidarWithROI boxes pts s P R RT
        = boxes.map (fun b =>
            { b with lidarPoints := b.lidarPoints ++ pts.filter (fun p =>
                decide (pixInShrunk s b (projectPixel P R RT p) ∧
                  enclosingCount boxes s (projectPixel P R RT p) = 1)) }) := by
  intro pts
  induction pts with
  | nil =>
    intro boxes
    show boxes = _
    have h : ∀ b : BoundingBox,
        ({ b with lidarPoints := b.lidarPoints ++ List.filter (fun p =>
            decide (pixInShrunk s b (projectPixel P R RT p) ∧
              enclosingCount boxes s (projectPixel P R RT p) = 1)) [] } : BoundingBox)
          = b := by
      intro b
      show ({ b with lidarPoints := b.lidarPoints ++ [] } : BoundingBox) = b
      rw [List.append_nil]
    rw [List.map_congr_left (fun b _ => h b)]
    exact (List.map_id boxes).symm
  | cons p ps ih =>
    intro boxes
    by_cases hcnt : enclosingCount boxes s (projectPixel P R RT p) = 1
    · have hstep : clusterLidarWithROI boxes (p :: ps) s P R RT
          = clusterLidarWithROI
              (boxes.map (fun b =>
                if pixInShrunk s b (projectPixel P R RT p)
                then { b with lidarPoints := b.lidarPoints ++ [p] } else b))
              ps s P R RT := by
        rw [clusterLidarWithROI, clusterLidarWithROI, List.foldl_cons]
        rw [if_pos hcnt]
      rw [hstep, ih]
      rw [List.map_map]
      have hg : ∀ b : BoundingBox,
          ((fun b =>
            if pixInShrunk s b (projectPixel P R RT p)
            then { b with lidarPoints := b.lidarPoints ++ [p] } else b) b).roi = b.roi := by
        intro b
        dsimp only
        by_cases hb2 : pixInShrunk s b (projectPixel P R RT p)
        · rw [if_pos hb2]
        · rw [if_neg hb2]
      apply List.map_congr_left
      intro b hb
      simp only [Function.comp_apply]
      have hcountEq : ∀ q : ℤ × ℤ,
          enclosingCount (boxes.map (fun b =>
            if pixInShrunk s b (projectPixel P R RT p)
            then { b with lidarPoints := b.lidarPoints ++ [p] } else b)) s q
          = enclosingCount boxes s q := fun q => enclosingCount_map boxes _ hg s q
      by_cases hpb : pixInShrunk s b (projectPixel P R RT p)
      · rw [if_pos hpb]
        rw [List.filter_cons_of_pos (by simp only [decide_eq_true_eq]; exact ⟨hpb, hcnt⟩)]
        have hfilter : ∀ l : List LidarPoint,
            l.filter (fun p2 =>
              decide (pixInShrunk s { b with lidarPoints := b.lidarPoints ++ [p] }
                  (projectPixel P R RT p2) ∧
                enclosingCount (boxes.map (fun b =>
                  if pixInShrunk s b (projectPixel P R RT p)
                  then { b with lidarPoints := b.lidarPoints ++ [p] } else b)) s
                  (projectPixel P R RT p2) = 1))
            = l.filter (fun p2 =>
              decide (pixInShrunk s b (projectPixel P R RT p2) ∧
                enclosingCount boxes s (projectPixel P R RT p2) = 1)) := by
          intro l
          apply List.filter_congr
          intro p2 hp2
          simp only [decide_eq_decide]
          rw [hcountEq]
          exact and_congr_left'
            (pixInShrunk_roi_eq s _ { b with lidarPoints := b.lidarPoints ++ [p] } b rfl)
        rw [hfilter]
        simp
      · rw [if_neg hpb]
        rw [List.filter_cons_of_neg (by
          simp only [decide_eq_true_eq, not_and]
          intro hcon
          exact absurd hcon hpb)]
        have hfilter : ∀ l : List LidarPoint,
            l.filter (fun p2 =>
              decide (pixInShrunk s b (projectPixel P R RT p2) ∧
                enclosingCount (boxes.map (fun b =>
                  if pixInShrunk s b (projectPixel P R RT p)
                  then { b with lidarPoints := b.lidarPoints ++ [p] } else b)) s
                  (projectPixel P R RT p2) = 1))
            = l.filter (fun p2 =>
              decide (pixInShrunk s b (projectPixel P R RT p2) ∧
                enclosingCount boxes s (projectPixel P R RT p2) = 1)) := by
          intro l
          apply List.filter_congr
          intro p2 hp2
          simp only [decide_eq_decide]
          rw [hcountEq]
        rw [hfilter]
    · have hstep : clusterLidarWithROI boxes (p :: ps) s P R RT
          = clusterLidarWithROI boxes ps s P R RT := by
        rw [clusterLidarWithROI, clusterLidarWithROI, List.foldl_cons]
        rw [if_neg hcnt]
      rw [hstep, ih]
      apply List.map_congr_left
      intro b hb
      rw [List.filter_cons_of_neg (by
        simp only [decide_eq_true_eq, not_and]
        intro _ hcon
        exact absurd hcon hcnt)]

/-- Claim C8 (amended): clusterLidarWithROI appends a lidar point to a
box's cluster iff its projected pixel is contained — in the half-open
sense of cv::Rect::contains, left/top edges included, right/bottom edges
excluded — in that box's shrunken rectangle (each side inset by
shrinkFactor/2 of that dimension, coordinates truncated to int) and the
pixel is contained in exactly one of the shrunken boxes; a pixel contained
in zero or in several shrunken boxes joins no cluster, and no point is
ever appended to more than one cluster. -/
theorem C8_cluster_lidar_amended (boundingBoxes : List BoundingBox)
    (lidarPoints : List LidarPoint) (shrinkFactor : ℝ)
    (P : Matrix (Fin 3) (Fin 4) ℝ) (R RT : Matrix (Fin 4) (Fin 4) ℝ) :
    clusterLidarWithROI boundingBoxes lidarPoints shrinkFactor P R RT
      = boundingBoxes.map (fun b =>
          { b with lidarPoints := b.lidarPoints ++ lidarPoints.filter (fun p =>
              decide (pixInShrunk shrinkFactor b (projectPixel P R RT p) ∧
                enclosingCount boundingBoxes shrinkFactor (projectPixel P R RT p) = 1)) }) :=
  clusterLidar_char shrinkFactor P R RT lidarPoints boundingBoxes
